import Mathlib

/-!
Verification of the behaviour of `backend/ai_chat_llama3.py`.

The script is a thin command-line bridge: it loads a causal language model,
reads one JSON object from standard input, generates a reply, post-processes
the reply string, prints one JSON object and exits.  The model, tokenizer and
generation call are external library work; their outcome (the decoded text, or
an exception) is an input of the embedding.  Python strings are modelled as
`List Char`; the relevant Python string primitives (`str.strip`,
`str.split(sep)`, `str.split()` and `str.endswith`) are modelled explicitly
below with Python semantics.
-/

namespace AIChat

/-- Characters treated as whitespace by the modelled `str.strip` and
`str.split()` operations (space, tab, newline, carriage return, vertical tab,
form feed). -/
def pyIsSpace (c : Char) : Bool :=
  c == ' ' || c == '\t' || c == '\n' || c == '\r' || c == Char.ofNat 11 || c == Char.ofNat 12

/-- Model of Python `str.strip()`: remove leading and trailing whitespace. -/
def pyStrip (s : List Char) : List Char :=
  ((s.dropWhile pyIsSpace).reverse.dropWhile pyIsSpace).reverse

/-- Whether `sep` occurs as a contiguous subsequence of the string. -/
def containsSeq (sep : List Char) : List Char → Bool
  | [] => sep.isEmpty
  | c :: rest => sep.isPrefixOf (c :: rest) || containsSeq sep rest

/-- Fuel-indexed worker for Python `str.split(sep)`: scan left to right, each
leftmost non-overlapping occurrence of `sep` ends the current piece.  The fuel
dominates the string length, so the fuel-exhausted arm is never reached when
called through `pySplit`. -/
def pySplitF (sep : List Char) : Nat → List Char → List (List Char)
  | _, [] => [[]]
  | 0, s => [s]
  | fuel+1, c :: rest =>
    if !sep.isEmpty && sep.isPrefixOf (c :: rest) then
      [] :: pySplitF sep fuel ((c :: rest).drop sep.length)
    else
      match pySplitF sep fuel rest with
      | [] => [[c]]
      | hd :: tl => (c :: hd) :: tl

/-- Model of Python `str.split(sep)` for a non-empty separator string. -/
def pySplit (sep s : List Char) : List (List Char) :=
  pySplitF sep s.length s

/-- Worker for Python `str.split()` (no separator): `cur` accumulates the
current word in reverse. -/
def pySplitWsGo (cur : List Char) : List Char → List (List Char)
  | [] => if cur.isEmpty then [] else [cur.reverse]
  | c :: rest =>
    if pyIsSpace c then
      if cur.isEmpty then pySplitWsGo [] rest
      else cur.reverse :: pySplitWsGo [] rest
    else pySplitWsGo (c :: cur) rest

/-- Model of Python `str.split()`: split on runs of whitespace, no empty
pieces. -/
def pySplitWs (s : List Char) : List (List Char) :=
  pySplitWsGo [] s

/-- The label the code actually splits the decoded text on (note the leading
newline in the source: `raw_output.split("\nAssistant:")`). -/
def nlAssistantLabel : List Char := "\nAssistant:".toList

/-- The bare label named by the specification text. -/
def assistantLabel : List Char := "Assistant:".toList

/-- The list `response_lines` of the source:
`raw_output.split("\nAssistant:")[-1].strip().split("\n")`. -/
def responseLines (raw : List Char) : List (List Char) :=
  pySplit ['\n'] (pyStrip ((pySplit nlAssistantLabel raw).getLastD []))

/-- The candidate reply of the source:
`response_lines[0].strip() if response_lines else ""`. -/
def extractCandidate (raw : List Char) : List Char :=
  match responseLines raw with
  | [] => []
  | l :: _ => pyStrip l

/-- Extraction following the specification words instead of the source: split
on the bare `"Assistant:"` label (the rest of the pipeline unchanged).  Used
only to compare the code against the specification. -/
def specResponseLines (raw : List Char) : List (List Char) :=
  pySplit ['\n'] (pyStrip ((pySplit assistantLabel raw).getLastD []))

/-- Spec-side candidate reply, to be compared with `extractCandidate`. -/
def specExtractCandidate (raw : List Char) : List Char :=
  match specResponseLines raw with
  | [] => []
  | l :: _ => pyStrip l

/-- The fixed fallback sentence substituted for an empty candidate. -/
def FALLBACK_RESPONSE : List Char :=
  "I'm sorry, Krishna is here to help. Please provide more details so I can assist you better.".toList

/-- The ellipsis appended by the truncation branch. -/
def ELLIPSIS : List Char := "...".toList

/-- The empty/overlong adjustment of the source:
`if not response: ... elif len(response.split()) > 50: response = response[:200] + "..."`. -/
def truncStep (r : List Char) : List Char :=
  if r = [] then FALLBACK_RESPONSE
  else if 50 < (pySplitWs r).length then r.take 200 ++ ELLIPSIS
  else r

/-- Model of `response.endswith(".")`: the last character is a period. -/
def endsWithDot (r : List Char) : Bool :=
  match r.reverse with
  | [] => false
  | c :: _ => c == '.'

/-- The final response string of `generate_response` on the non-error path,
as a function of the decoded text `raw_output`:
extraction, fallback/truncation, then `if not response.endswith("."): response += "."`. -/
def finalResponse (raw : List Char) : List Char :=
  if endsWithDot (truncStep (extractCandidate raw)) then truncStep (extractCandidate raw)
  else truncStep (extractCandidate raw) ++ ['.']

/-- JSON values, as produced by `json.loads` and consumed by `json.dumps`. -/
inductive JValue where
  | null : JValue
  | jbool : Bool → JValue
  | num : Int → JValue
  | str : List Char → JValue
  | arr : List JValue → JValue
  | obj : List (List Char × JValue) → JValue

/-- Whether a JSON value is an object (a Python dict). -/
def JValue.isObj : JValue → Bool
  | JValue.obj _ => true
  | _ => false

/-- Exceptions that the fallible part of `generate_response` (tokenize,
generate, decode) can raise: the specifically caught
`torch.cuda.OutOfMemoryError`, or anything else. -/
inductive PyExc where
  | oom : PyExc
  | other : PyExc

/-- The fixed apology returned when `generate_response` catches an
exception. -/
def APOLOGY : List Char :=
  "I'm sorry, Krishna encountered an error. Please try again.".toList

/-- Key of the reply text in the success object. -/
def respKey : List Char := "response".toList

/-- Key of the escalation flag in the success object. -/
def escKey : List Char := "escalate".toList

/-- Model of `generate_response`.  The outcome of the fallible library steps
(tokenisation, generation, decode) is the argument: either the decoded text or
an exception.  Both `except` clauses of the source return the same apology
dict with `escalate` true; the non-error path returns the post-processed
response with `escalate` false (`is_confused` is the constant `False`). -/
def generateResponse (gen : Except PyExc (List Char)) : JValue :=
  match gen with
  | Except.ok raw =>
    JValue.obj [(respKey, JValue.str (finalResponse raw)), (escKey, JValue.jbool false)]
  | Except.error _ =>
    JValue.obj [(respKey, JValue.str APOLOGY), (escKey, JValue.jbool true)]

/-- Key of the message field of the request object. -/
def msgKey : List Char := "message".toList

/-- Key of error objects printed by the script. -/
def errKey : List Char := "error".toList

/-- The single-key JSON error object `{"error": m}`. -/
def errObj (m : List Char) : JValue := JValue.obj [(errKey, JValue.str m)]

/-- Error text for a missing or empty `MODEL_PATH` setting. -/
def MODEL_PATH_ERR : List Char := "MODEL_PATH not found in .env file.".toList

/-- Error text for empty standard input. -/
def NO_INPUT_ERR : List Char := "No input data received.".toList

/-- Error text for a request object without a `message` key. -/
def NO_MSG_KEY_ERR : List Char := "Input JSON does not contain 'message' key.".toList

/-- Error text for a JSON parse failure, around the parser message. -/
def parseErr (e : List Char) : List Char := "Error parsing input JSON: ".toList ++ e

/-- Error text of the catch-all handler, around the exception message. -/
def reqErr (e : List Char) : List Char := "Error processing request: ".toList ++ e

/-- Error text for a model-loading failure, around the exception message. -/
def loadErr (e : List Char) : List Char := "Failed to load model: ".toList ++ e

/-- Error text for a nonexistent model path. -/
def pathErr (p : List Char) : List Char :=
  "Model path does not exist: ".toList ++ p ++
    ". Please verify the path and ensure the model files are present.".toList

/-- Python equality of a JSON value with a string (used for list membership):
only an equal string compares equal. -/
def jvalEqStr : JValue → List Char → Bool
  | JValue.str s, key => s == key
  | _, _ => false

/-- Model of the Python expression `key in data` on a JSON value: key lookup
for dicts, element membership for lists, substring test for strings, and a
`TypeError` (carried as the error message) for the non-iterable values. -/
def pyContains (key : List Char) : JValue → Except (List Char) Bool
  | JValue.obj kvs => Except.ok (kvs.any (fun kv => kv.1 == key))
  | JValue.arr xs => Except.ok (xs.any (fun x => jvalEqStr x key))
  | JValue.str s => Except.ok (containsSeq key s)
  | JValue.null => Except.error "argument of type 'NoneType' is not iterable".toList
  | JValue.jbool _ => Except.error "argument of type 'bool' is not iterable".toList
  | JValue.num _ => Except.error "argument of type 'int' is not iterable".toList

/-- Model of the Python expression `data[key]` with a string key: dict lookup,
`TypeError` for every non-dict value. -/
def pySubscript : JValue → List Char → Except (List Char) JValue
  | JValue.obj kvs, key =>
    match kvs.find? (fun kv => kv.1 == key) with
    | some kv => Except.ok kv.2
    | none => Except.error ("KeyError: ".toList ++ key)
  | JValue.str _, _ => Except.error "string indices must be integers".toList
  | JValue.arr _, _ => Except.error "list indices must be integers or slices, not str".toList
  | JValue.null, _ => Except.error "'NoneType' object is not subscriptable".toList
  | JValue.jbool _, _ => Except.error "'bool' object is not subscriptable".toList
  | JValue.num _, _ => Except.error "'int' object is not subscriptable".toList

/-- Observable outcome of one process invocation: the single JSON object
printed to standard output, the exit status, how many times the cleanup block
ran, whether `generate_response` was invoked, and whether model loading was
attempted. -/
structure ProcResult where
  output : JValue
  exitCode : Nat
  cleanupRuns : Nat
  genCalled : Bool
  loadAttempted : Bool

/-- Model of the `if __name__ == "__main__"` block: strip stdin, reject empty
input, parse JSON (the parser is an oracle argument), require the `message`
key, call `generate_response`, print.  The `except` clauses turn a parse
failure or any other exception (here: the `TypeError`s of `in`/`[]` on
non-dict values) into an error object with exit status 1.  `sys.exit(1)`
raises `SystemExit`, which the `except Exception` clauses do not catch, so the
`finally` cleanup runs exactly once on every path of this block. -/
def mainBlock (stdin : List Char) (parse : List Char → Except (List Char) JValue)
    (gen : Except PyExc (List Char)) : ProcResult :=
  if pyStrip stdin = [] then
    ⟨errObj NO_INPUT_ERR, 1, 1, false, true⟩
  else
    match parse (pyStrip stdin) with
    | Except.error e => ⟨errObj (parseErr e), 1, 1, false, true⟩
    | Except.ok data =>
      match pyContains msgKey data with
      | Except.error e => ⟨errObj (reqErr e), 1, 1, false, true⟩
      | Except.ok false => ⟨errObj NO_MSG_KEY_ERR, 1, 1, false, true⟩
      | Except.ok true =>
        match pySubscript data msgKey with
        | Except.error e => ⟨errObj (reqErr e), 1, 1, false, true⟩
        | Except.ok _ => ⟨generateResponse gen, 0, 1, true, true⟩

/-- Model of a whole process invocation.  The module-level loader exits with
an error object before the `try/finally` of the entry block exists: missing or
empty `MODEL_PATH`, nonexistent model path, and load failure all terminate
with no cleanup.  `cleanupFails` is the outcome of the cleanup attempt; the
`except Exception: pass` around the cleanup makes it invisible in every
field of the result. -/
def processRun (env : Option (List Char)) (pathExists : Bool)
    (loadResult : Except (List Char) Unit) (stdin : List Char)
    (parse : List Char → Except (List Char) JValue)
    (gen : Except PyExc (List Char)) (cleanupFails : Bool) : ProcResult :=
  match env with
  | none => ⟨errObj MODEL_PATH_ERR, 1, 0, false, false⟩
  | some p =>
    if p = [] then ⟨errObj MODEL_PATH_ERR, 1, 0, false, false⟩
    else if pathExists = false then ⟨errObj (pathErr p), 1, 0, false, false⟩
    else
      match loadResult with
      | Except.error e => ⟨errObj (loadErr e), 1, 0, false, true⟩
      | Except.ok _ => mainBlock stdin parse gen

/-- Whether the printed JSON object has the success shape
`{"response": <string>, "escalate": <bool>}`. -/
def isSuccessShape : JValue → Bool
  | JValue.obj [(k1, JValue.str _), (k2, JValue.jbool _)] => k1 == respKey && k2 == escKey
  | _ => false

/-- Whether the printed JSON object has the error shape `{"error": <string>}`. -/
def isErrorShape : JValue → Bool
  | JValue.obj [(k, JValue.str _)] => k == errKey
  | _ => false

/-- Whether the invocation gets past the module-level loader (a valid path
setting, an existing path, and a successful load). -/
def loadedOk (env : Option (List Char)) (pathExists : Bool)
    (loadResult : Except (List Char) Unit) : Bool :=
  match env with
  | none => false
  | some p =>
    !p.isEmpty && pathExists &&
      (match loadResult with
       | Except.ok _ => true
       | Except.error _ => false)

/-! ### Lemmas about the split model -/

theorem pySplitF_nil (sep : List Char) (fuel : Nat) : pySplitF sep fuel [] = [[]] := by
  cases fuel <;> rfl

theorem pySplitF_succ (sep : List Char) (fuel : Nat) (c : Char) (rest : List Char) :
    pySplitF sep (fuel + 1) (c :: rest) =
      if !sep.isEmpty && sep.isPrefixOf (c :: rest) then
        [] :: pySplitF sep fuel ((c :: rest).drop sep.length)
      else
        match pySplitF sep fuel rest with
        | [] => [[c]]
        | hd :: tl => (c :: hd) :: tl := rfl

theorem pySplitF_ne_nil (sep : List Char) (fuel : Nat) (s : List Char) :
    pySplitF sep fuel s ≠ [] := by
  match fuel, s with
  | fuel, [] => rw [pySplitF_nil]; simp
  | 0, c :: rest => simp [pySplitF]
  | fuel + 1, c :: rest =>
    rw [pySplitF_succ]
    split
    · simp
    · split <;> simp

theorem pySplitF_fuel (sep : List Char) :
    ∀ f₁ f₂ s, s.length ≤ f₁ → s.length ≤ f₂ →
      pySplitF sep f₁ s = pySplitF sep f₂ s := by
  intro f₁
  induction f₁ with
  | zero =>
    intro f₂ s h1 _
    have hs : s = [] := by
      cases s with
      | nil => rfl
      | cons c rest => simp at h1
    subst hs
    rw [pySplitF_nil, pySplitF_nil]
  | succ f ih =>
    intro f₂ s h1 h2
    cases s with
    | nil => rw [pySplitF_nil, pySplitF_nil]
    | cons c rest =>
      cases f₂ with
      | zero => simp at h2
      | succ g =>
        rw [pySplitF_succ, pySplitF_succ]
        by_cases hcond : (!sep.isEmpty && sep.isPrefixOf (c :: rest)) = true
        · rw [if_pos hcond, if_pos hcond]
          have hsep : sep ≠ [] := by
            rcases Bool.and_eq_true_iff.mp hcond with ⟨hne, _⟩
            simp only [Bool.not_eq_true'] at hne
            intro h
            rw [h] at hne
            simp at hne
          have hlen : 1 ≤ sep.length := by
            cases sep with
            | nil => exact absurd rfl hsep
            | cons a as => simp
          have hd : ((c :: rest).drop sep.length).length ≤ rest.length := by
            rw [List.length_drop]
            simp only [List.length_cons]
            omega
          congr 1
          exact ih _ _ (le_trans hd (Nat.le_of_succ_le_succ h1))
            (le_trans hd (Nat.le_of_succ_le_succ h2))
        · rw [if_neg hcond, if_neg hcond]
          rw [ih g rest (Nat.le_of_succ_le_succ h1) (Nat.le_of_succ_le_succ h2)]

theorem pySplit_nil (sep : List Char) : pySplit sep [] = [[]] := rfl

theorem pySplit_cons (sep : List Char) (c : Char) (rest : List Char) :
    pySplit sep (c :: rest) =
      if !sep.isEmpty && sep.isPrefixOf (c :: rest) then
        [] :: pySplit sep ((c :: rest).drop sep.length)
      else
        match pySplit sep rest with
        | [] => [[c]]
        | hd :: tl => (c :: hd) :: tl := by
  show pySplitF sep (rest.length + 1) (c :: rest) = _
  rw [pySplitF_succ]
  by_cases hcond : (!sep.isEmpty && sep.isPrefixOf (c :: rest)) = true
  · rw [if_pos hcond, if_pos hcond]
    have hsep : sep ≠ [] := by
      rcases Bool.and_eq_true_iff.mp hcond with ⟨hne, _⟩
      simp only [Bool.not_eq_true'] at hne
      intro h
      rw [h] at hne
      simp at hne
    have hlen : 1 ≤ sep.length := by
      cases sep with
      | nil => exact absurd rfl hsep
      | cons a as => simp
    have hd : ((c :: rest).drop sep.length).length ≤ rest.length := by
      rw [List.length_drop]
      simp only [List.length_cons]
      omega
    congr 1
    exact pySplitF_fuel sep rest.length _ _ hd le_rfl
  · rw [if_neg hcond, if_neg hcond]
    rfl

theorem pySplit_ne_nil (sep s : List Char) : pySplit sep s ≠ [] :=
  pySplitF_ne_nil sep s.length s

theorem isPrefixOf_iff_exists :
    ∀ (p l : List Char), p.isPrefixOf l = true ↔ ∃ t, l = p ++ t
  | [], l => by simp [List.isPrefixOf]
  | a :: as, [] => by simp [List.isPrefixOf]
  | a :: as, b :: bs => by
    simp only [List.isPrefixOf, Bool.and_eq_true, beq_iff_eq,
      isPrefixOf_iff_exists as bs]
    constructor
    · rintro ⟨rfl, t, rfl⟩
      exact ⟨t, rfl⟩
    · rintro ⟨t, h⟩
      rw [List.cons_append] at h
      cases h
      exact ⟨rfl, t, rfl⟩

theorem containsSeq_iff (sep : List Char) :
    ∀ s, containsSeq sep s = true ↔ ∃ u v, s = u ++ sep ++ v := by
  intro s
  induction s with
  | nil =>
    simp only [containsSeq, List.isEmpty_iff]
    constructor
    · rintro rfl
      exact ⟨[], [], rfl⟩
    · rintro ⟨u, v, h⟩
      rcases List.append_eq_nil.mp h.symm with ⟨h1, h2⟩
      exact (List.append_eq_nil.mp h1).2
  | cons c rest ih =>
    simp only [containsSeq, Bool.or_eq_true, isPrefixOf_iff_exists, ih]
    constructor
    · rintro (⟨t, ht⟩ | ⟨u, v, hv⟩)
      · exact ⟨[], t, by simpa using ht⟩
      · exact ⟨c :: u, v, by simp [hv]⟩
    · rintro ⟨u, v, h⟩
      cases u with
      | nil =>
        exact Or.inl ⟨v, by simpa using h⟩
      | cons c' u' =>
        simp only [List.cons_append] at h
        cases h
        exact Or.inr ⟨u', v, rfl⟩

theorem containsSeq_of_isPrefixOf (sep : List Char) (c : Char) (rest : List Char)
    (h : sep.isPrefixOf (c :: rest) = true) : containsSeq sep (c :: rest) = true := by
  simp [containsSeq, h]

theorem pySplit_of_not_contains (sep : List Char) :
    ∀ s, containsSeq sep s = false → pySplit sep s = [s] := by
  intro s
  induction s with
  | nil => intro _; exact pySplit_nil sep
  | cons c rest ih =>
    intro h
    have h' : sep.isPrefixOf (c :: rest) = false ∧ containsSeq sep rest = false := by
      simpa [containsSeq, Bool.or_eq_false_iff] using h
    rw [pySplit_cons, if_neg (by simp [h'.1]), ih h'.2]

/-! ### Append/take helper lemmas -/

theorem take_append_le :
    ∀ (l₁ l₂ : List Char) (n : Nat), n ≤ l₁.length → (l₁ ++ l₂).take n = l₁.take n
  | _, _, 0, _ => by simp
  | [], _, n + 1, h => by simp at h
  | a :: l₁, l₂, n + 1, h => by
    simp only [List.cons_append, List.take_succ_cons, List.cons.injEq, true_and]
    exact take_append_le l₁ l₂ n (Nat.le_of_succ_le_succ h)

theorem take_append_ge :
    ∀ (l₁ l₂ : List Char) (n : Nat), l₁.length ≤ n →
      (l₁ ++ l₂).take n = l₁ ++ l₂.take (n - l₁.length)
  | [], _, n, _ => by simp
  | a :: l₁, _, 0, h => by simp at h
  | a :: l₁, l₂, n + 1, h => by
    simp only [List.cons_append, List.take_succ_cons, List.cons.injEq, true_and,
      List.length_cons, Nat.succ_sub_succ]
    exact take_append_ge l₁ l₂ n (Nat.le_of_succ_le_succ h)

theorem drop_append_self (l₁ l₂ : List Char) : (l₁ ++ l₂).drop l₁.length = l₂ :=
  List.drop_left l₁ l₂

/-- If a nonempty separator is a prefix of `a ++ sep ++ t` with `a` nonempty,
then `sep` already occurs inside `a` followed by all but the last character of
`sep` — the key step showing the greedy scan takes no match while still inside
`a`. -/
theorem sep_into_guard (sep a t : List Char) (ha : a ≠ [])
    (h : sep.isPrefixOf (a ++ sep ++ t) = true) :
    containsSeq sep (a ++ sep.dropLast) = true := by
  rcases (isPrefixOf_iff_exists sep _).mp h with ⟨r, hr⟩
  rw [List.append_assoc] at hr
  have hlena : 1 ≤ a.length := by
    cases a with
    | nil => exact absurd rfl ha
    | cons x xs => simp
  rcases Nat.le_total sep.length a.length with hle | hle
  · -- the match lies entirely inside `a`
    have htake := congrArg (List.take sep.length) hr
    rw [take_append_le a _ sep.length hle,
      take_append_le sep r sep.length le_rfl, List.take_length] at htake
    -- htake : a.take sep.length = sep
    refine (containsSeq_iff sep _).mpr ⟨[], a.drop sep.length ++ sep.dropLast, ?_⟩
    conv_lhs => rw [← List.take_append_drop sep.length a]
    rw [htake]
    simp [List.append_assoc]
  · -- the match covers all of `a` and reaches into `sep`
    have htake := congrArg (List.take sep.length) hr
    rw [take_append_ge a _ sep.length hle,
      take_append_le sep t (sep.length - a.length) (Nat.sub_le _ _),
      take_append_le sep r sep.length le_rfl, List.take_length] at htake
    -- htake : a ++ sep.take (sep.length - a.length) = sep
    have hk : sep.length - a.length ≤ sep.length - 1 := by omega
    have hdl : sep.dropLast.take (sep.length - a.length) =
        sep.take (sep.length - a.length) := by
      rw [List.dropLast_eq_take sep,
        List.take_take (sep.length - a.length) (sep.length - 1) sep]
      congr 1
      omega
    refine (containsSeq_iff sep _).mpr
      ⟨[], sep.dropLast.drop (sep.length - a.length), ?_⟩
    conv_lhs =>
      rw [← List.take_append_drop (sep.length - a.length) sep.dropLast, hdl]
    rw [← List.append_assoc, htake]
    simp

/-- Splitting `a ++ sep ++ t` on `sep` yields exactly `[a, t]` when `sep`
occurs neither inside `a` (nor straddling into the marked occurrence) nor
inside `t`. -/
theorem pySplit_boundary (sep : List Char) (hsep : sep ≠ []) :
    ∀ a t, containsSeq sep (a ++ sep.dropLast) = false →
      containsSeq sep t = false →
      pySplit sep (a ++ sep ++ t) = [a, t] := by
  intro a
  induction a with
  | nil =>
    intro t _ h2
    simp only [List.nil_append]
    obtain ⟨c, sep', hcs⟩ : ∃ c sep', sep = c :: sep' := by
      cases sep with
      | nil => exact absurd rfl hsep
      | cons c sep' => exact ⟨c, sep', rfl⟩
    rw [show sep ++ t = c :: (sep' ++ t) by rw [hcs]; rfl, pySplit_cons]
    have hpre : sep.isPrefixOf (c :: (sep' ++ t)) = true := by
      rw [isPrefixOf_iff_exists]
      exact ⟨t, by rw [hcs]; rfl⟩
    have hne : sep.isEmpty = false := by
      rw [hcs]; rfl
    rw [if_pos (by simp [hpre, hne])]
    have hdrop : (c :: (sep' ++ t)).drop sep.length = t := by
      rw [show c :: (sep' ++ t) = sep ++ t by rw [hcs]; rfl]
      exact drop_append_self sep t
    rw [hdrop, pySplit_of_not_contains sep t h2]
  | cons c a' ih =>
    intro t h1 h2
    rw [show (c :: a') ++ sep ++ t = c :: (a' ++ sep ++ t) by simp, pySplit_cons]
    have hpre : sep.isPrefixOf (c :: (a' ++ sep ++ t)) = false := by
      by_contra hcontra
      have hp : sep.isPrefixOf ((c :: a') ++ sep ++ t) = true := by
        rw [show (c :: a') ++ sep ++ t = c :: (a' ++ sep ++ t) by simp]
        exact Bool.of_not_eq_false hcontra
      have := sep_into_guard sep (c :: a') t (by simp) hp
      rw [show (c :: a') ++ sep.dropLast = c :: (a' ++ sep.dropLast) by simp] at this
      rw [show (c :: a') ++ sep.dropLast = c :: (a' ++ sep.dropLast) by simp] at h1
      rw [h1] at this
      exact Bool.false_ne_true this
    have hcond : (!sep.isEmpty && sep.isPrefixOf (c :: (a' ++ sep ++ t))) = false := by
      rw [hpre, Bool.and_false]
    rw [if_neg (by rw [hcond]; simp)]
    have h1' : containsSeq sep (a' ++ sep.dropLast) = false := by
      rw [show (c :: a') ++ sep.dropLast = c :: (a' ++ sep.dropLast) by simp] at h1
      have := (Bool.or_eq_false_iff.mp (by simpa [containsSeq] using h1)).2
      exact this
    rw [ih t h1' h2]

/-- Occurrence of a longer pattern gives occurrence of its tail pattern. -/
theorem containsSeq_of_cons (x : Char) (p s : List Char)
    (h : containsSeq (x :: p) s = true) : containsSeq p s = true := by
  rcases (containsSeq_iff _ _).mp h with ⟨u, v, rfl⟩
  exact (containsSeq_iff _ _).mpr ⟨u ++ [x], v, by simp⟩

/-! ### Case analyses of the entry block and the whole process -/

/-- Every path of the entry block either prints an error object with exit
status 1, never calling `generate_response`, or prints the result of
`generate_response` with exit status 0; the cleanup block runs exactly once
either way. -/
theorem mainBlock_cases (stdin : List Char)
    (parse : List Char → Except (List Char) JValue)
    (gen : Except PyExc (List Char)) :
    (∃ m, mainBlock stdin parse gen = ⟨errObj m, 1, 1, false, true⟩) ∨
      mainBlock stdin parse gen = ⟨generateResponse gen, 0, 1, true, true⟩ := by
  unfold mainBlock
  split
  · exact Or.inl ⟨_, rfl⟩
  · split
    · exact Or.inl ⟨_, rfl⟩
    · split
      · exact Or.inl ⟨_, rfl⟩
      · exact Or.inl ⟨_, rfl⟩
      · split
        · exact Or.inl ⟨_, rfl⟩
        · exact Or.inr rfl

theorem processRun_none (pathExists : Bool) (loadResult : Except (List Char) Unit)
    (stdin : List Char) (parse : List Char → Except (List Char) JValue)
    (gen : Except PyExc (List Char)) (cleanupFails : Bool) :
    processRun none pathExists loadResult stdin parse gen cleanupFails =
      ⟨errObj MODEL_PATH_ERR, 1, 0, false, false⟩ := rfl

theorem processRun_some (p : List Char) (pathExists : Bool)
    (loadResult : Except (List Char) Unit) (stdin : List Char)
    (parse : List Char → Except (List Char) JValue)
    (gen : Except PyExc (List Char)) (cleanupFails : Bool) :
    processRun (some p) pathExists loadResult stdin parse gen cleanupFails =
      (if p = [] then ⟨errObj MODEL_PATH_ERR, 1, 0, false, false⟩
       else if pathExists = false then ⟨errObj (pathErr p), 1, 0, false, false⟩
       else
         match loadResult with
         | Except.error e => ⟨errObj (loadErr e), 1, 0, false, true⟩
         | Except.ok _ => mainBlock stdin parse gen) := rfl

/-- Every run either stops in the loader with an error object, exit status 1
and no cleanup, or proceeds to the entry block. -/
theorem processRun_cases (env : Option (List Char)) (pathExists : Bool)
    (loadResult : Except (List Char) Unit) (stdin : List Char)
    (parse : List Char → Except (List Char) JValue)
    (gen : Except PyExc (List Char)) (cleanupFails : Bool) :
    (∃ m la, processRun env pathExists loadResult stdin parse gen cleanupFails =
        ⟨errObj m, 1, 0, false, la⟩) ∨
      processRun env pathExists loadResult stdin parse gen cleanupFails =
        mainBlock stdin parse gen := by
  cases env with
  | none => exact Or.inl ⟨_, _, rfl⟩
  | some p =>
    rw [processRun_some]
    by_cases hp : p = []
    · rw [if_pos hp]
      exact Or.inl ⟨_, _, rfl⟩
    · rw [if_neg hp]
      by_cases he : pathExists = false
      · rw [if_pos he]
        exact Or.inl ⟨_, _, rfl⟩
      · rw [if_neg he]
        cases loadResult with
        | error e => exact Or.inl ⟨_, _, rfl⟩
        | ok u => exact Or.inr rfl

/-- Error objects have the error shape and not the success shape. -/
theorem errObj_shape (m : List Char) :
    isErrorShape (errObj m) = true ∧ isSuccessShape (errObj m) = false := by
  constructor
  · simp [isErrorShape, errObj]
  · rfl

/-- Both arms of `generate_response` produce the success shape. -/
theorem generateResponse_shape (gen : Except PyExc (List Char)) :
    isSuccessShape (generateResponse gen) = true ∧
      isErrorShape (generateResponse gen) = false := by
  cases gen with
  | ok raw => constructor <;> simp [generateResponse, isSuccessShape, isErrorShape]
  | error e => constructor <;> simp [generateResponse, isSuccessShape, isErrorShape]

/-! ### Lemmas about the response post-processing -/

theorem endsWithDot_append_dot (l : List Char) : endsWithDot (l ++ ['.']) = true := by
  unfold endsWithDot
  rw [List.reverse_append]
  rfl

theorem endsWithDot_append_ellipsis (l : List Char) :
    endsWithDot (l ++ ELLIPSIS) = true := by
  unfold endsWithDot
  rw [show (ELLIPSIS : List Char) = ['.', '.', '.'] from rfl, List.reverse_append]
  rfl

theorem endsWithDot_ne_nil (r : List Char) (h : endsWithDot r = true) : r ≠ [] := by
  intro hr
  rw [hr] at h
  simp [endsWithDot] at h

theorem pySplitWs_nil : pySplitWs [] = [] := rfl

/-! ### Claim theorems -/

/-- Claim C1: in `generate_response`, a non-empty candidate of more than 50
whitespace-separated words is replaced by its first 200 characters plus an
ellipsis (and the period step then changes nothing, since the ellipsis ends in
a period); a non-empty candidate of at most 50 words is never truncated,
regardless of its character length — at most a final period is appended. -/
theorem trunc_by_chars_on_long_candidates (raw : List Char) :
    (extractCandidate raw ≠ [] → 50 < (pySplitWs (extractCandidate raw)).length →
      finalResponse raw = (extractCandidate raw).take 200 ++ ELLIPSIS) ∧
    (extractCandidate raw ≠ [] → (pySplitWs (extractCandidate raw)).length ≤ 50 →
      (finalResponse raw = extractCandidate raw ∨
        finalResponse raw = extractCandidate raw ++ ['.'])) := by
  constructor
  · intro h0 h50
    have ht : truncStep (extractCandidate raw) =
        (extractCandidate raw).take 200 ++ ELLIPSIS := by
      unfold truncStep
      rw [if_neg h0, if_pos h50]
    unfold finalResponse
    rw [ht, if_pos (endsWithDot_append_ellipsis _)]
  · intro h0 h50
    have ht : truncStep (extractCandidate raw) = extractCandidate raw := by
      unfold truncStep
      rw [if_neg h0, if_neg (by omega)]
    unfold finalResponse
    rw [ht]
    by_cases hd : endsWithDot (extractCandidate raw) = true
    · rw [if_pos hd]
      exact Or.inl rfl
    · rw [if_neg hd]
      exact Or.inr rfl

set_option maxRecDepth 100000 in
/-- Witness for C1: a 51-word candidate is truncated by characters, a 2-word
candidate is kept whole. -/
theorem trunc_by_chars_on_long_candidates_witness :
    (finalResponse ("\nAssistant: w w w w w w w w w w w w w w w w w w w w w w w w w w w w w w w w w w w w w w w w w w w w w w w w w w w".toList) =
      (extractCandidate ("\nAssistant: w w w w w w w w w w w w w w w w w w w w w w w w w w w w w w w w w w w w w w w w w w w w w w w w w w w".toList)).take 200 ++ ELLIPSIS) ∧
    (finalResponse ("\nAssistant: Hello there".toList) =
        extractCandidate ("\nAssistant: Hello there".toList) ∨
      finalResponse ("\nAssistant: Hello there".toList) =
        extractCandidate ("\nAssistant: Hello there".toList) ++ ['.']) :=
  ⟨(trunc_by_chars_on_long_candidates _).1 (by decide) (by decide),
   (trunc_by_chars_on_long_candidates _).2 (by decide) (by decide)⟩

set_option maxRecDepth 100000 in
/-- Counterexample to C2 as stated: a decoded text that is a single word of
600 characters is not truncated (it has at most 50 words), so the returned
response has 601 characters — far more than roughly 200. -/
theorem response_cap_counterexample :
    (finalResponse (List.replicate 600 'a')).length = 601 ∧
      400 < (finalResponse (List.replicate 600 'a')).length := by
  constructor <;> decide

/-- Claim C2 (amended): on the non-error path the returned object has exactly
the keys `response` and `escalate`, the response is a non-empty string ending
in a period, and `escalate` is false; the roughly-200-character cap holds only
when the truncation branch fires (candidate longer than 50 words), in which
case the response has at most 203 characters. -/
theorem response_shape_amended (raw : List Char) :
    generateResponse (Except.ok raw) =
      JValue.obj [(respKey, JValue.str (finalResponse raw)), (escKey, JValue.jbool false)] ∧
    finalResponse raw ≠ [] ∧
    endsWithDot (finalResponse raw) = true ∧
    (50 < (pySplitWs (extractCandidate raw)).length →
      (finalResponse raw).length ≤ 203) := by
  refine ⟨rfl, ?_, ?_, ?_⟩
  · unfold finalResponse
    by_cases hd : endsWithDot (truncStep (extractCandidate raw)) = true
    · rw [if_pos hd]
      exact endsWithDot_ne_nil _ hd
    · rw [if_neg hd]
      simp
  · unfold finalResponse
    by_cases hd : endsWithDot (truncStep (extractCandidate raw)) = true
    · rw [if_pos hd]
      exact hd
    · rw [if_neg hd]
      exact endsWithDot_append_dot _
  · intro h50
    have h0 : extractCandidate raw ≠ [] := by
      intro h
      rw [h] at h50
      simp [pySplitWs_nil] at h50
    have ht : truncStep (extractCandidate raw) =
        (extractCandidate raw).take 200 ++ ELLIPSIS := by
      unfold truncStep
      rw [if_neg h0, if_pos h50]
    unfold finalResponse
    rw [ht, if_pos (endsWithDot_append_ellipsis _), List.length_append, List.length_take]
    have hmin : min 200 (extractCandidate raw).length ≤ 200 := Nat.min_le_left _ _
    have hell : (ELLIPSIS : List Char).length = 3 := rfl
    omega

set_option maxRecDepth 100000 in
/-- Witness for C2 (amended): the conditional cap instantiated on a 51-word
candidate. -/
theorem response_shape_amended_witness :
    (finalResponse ("\nAssistant: u u u u u u u u u u u u u u u u u u u u u u u u u u u u u u u u u u u u u u u u u u u u u u u u u u u".toList)).length ≤ 203 :=
  (response_shape_amended _).2.2.2 (by decide)

/-- Claim C3: every exception outcome of the fallible generation steps,
including the device out-of-memory condition, yields the fixed apology object
with `escalate` true; and `generate_response` always returns a
response/escalate object (no exception propagates out). -/
theorem generation_errors_contained :
    (∀ e : PyExc, generateResponse (Except.error e) =
        JValue.obj [(respKey, JValue.str APOLOGY), (escKey, JValue.jbool true)]) ∧
    (∀ gen : Except PyExc (List Char), ∃ r b, generateResponse gen =
        JValue.obj [(respKey, JValue.str r), (escKey, JValue.jbool b)]) := by
  constructor
  · intro e
    rfl
  · intro gen
    cases gen with
    | ok raw => exact ⟨_, _, rfl⟩
    | error e => exact ⟨_, _, rfl⟩

/-- Claim C10: splitting on a separator never yields an empty list, so the
index-0 access of `response_lines` is safe and the guarding else-branch
(empty-string result) of the source is unreachable: the extraction always
equals the stripped head of the line list. -/
theorem split_lines_never_empty (raw : List Char) :
    responseLines raw ≠ [] ∧
      extractCandidate raw = pyStrip ((responseLines raw).headD []) := by
  refine ⟨pySplit_ne_nil _ _, ?_⟩
  unfold extractCandidate
  cases hr : responseLines raw with
  | nil => exact absurd hr (pySplit_ne_nil _ _)
  | cons l ls =>
    rfl

/-- Claim C4: for every invocation, the exit status is 0 exactly when the
printed object has the success shape (response/escalate, including the
internally handled model-error response), and 1 exactly when it has the error
shape. -/
theorem exit_status_matches_output_shape (env : Option (List Char))
    (pathExists : Bool) (loadResult : Except (List Char) Unit) (stdin : List Char)
    (parse : List Char → Except (List Char) JValue)
    (gen : Except PyExc (List Char)) (cleanupFails : Bool) :
    ((processRun env pathExists loadResult stdin parse gen cleanupFails).exitCode = 0 ↔
      isSuccessShape (processRun env pathExists loadResult stdin parse gen cleanupFails).output = true) ∧
    ((processRun env pathExists loadResult stdin parse gen cleanupFails).exitCode = 1 ↔
      isErrorShape (processRun env pathExists loadResult stdin parse gen cleanupFails).output = true) := by
  rcases processRun_cases env pathExists loadResult stdin parse gen cleanupFails with
    ⟨m, la, h⟩ | h
  · rw [h]
    simp [(errObj_shape m).1, (errObj_shape m).2]
  · rw [h]
    rcases mainBlock_cases stdin parse gen with ⟨m, hm⟩ | hm
    · rw [hm]
      simp [(errObj_shape m).1, (errObj_shape m).2]
    · rw [hm]
      simp [(generateResponse_shape gen).1, (generateResponse_shape gen).2]

/-- Counterexample to C5 as stated: with a missing `MODEL_PATH` the process
exits with an error, yet the cleanup block runs zero times, not once — the
module-level `sys.exit(1)` happens before the `try/finally` exists. -/
theorem cleanup_skipped_on_config_error :
    (processRun none true (Except.ok ()) ("x".toList)
        (fun _ => Except.error []) (Except.ok []) false).cleanupRuns = 0 ∧
    (processRun none true (Except.ok ()) ("x".toList)
        (fun _ => Except.error []) (Except.ok []) false).exitCode = 1 :=
  ⟨rfl, rfl⟩

/-- Claim C5 (amended): the cleanup block runs exactly once on every exit path
that gets past the module-level loader (successful load), and zero times on
the configuration-error and load-failure exits; a failure of the cleanup
itself is invisible in the observable result. -/
theorem cleanup_once_after_load_amended (env : Option (List Char))
    (pathExists : Bool) (loadResult : Except (List Char) Unit) (stdin : List Char)
    (parse : List Char → Except (List Char) JValue)
    (gen : Except PyExc (List Char)) (cf1 cf2 : Bool) :
    processRun env pathExists loadResult stdin parse gen cf1 =
      processRun env pathExists loadResult stdin parse gen cf2 ∧
    (processRun env pathExists loadResult stdin parse gen cf1).cleanupRuns =
      (if loadedOk env pathExists loadResult = true then 1 else 0) := by
  constructor
  · rfl
  · cases env with
    | none =>
      rw [processRun_none]
      simp [loadedOk]
    | some p =>
      rw [processRun_some]
      by_cases hp : p = []
      · rw [if_pos hp]
        subst hp
        simp [loadedOk]
      · rw [if_neg hp]
        have hpe : p.isEmpty = false := by
          cases p with
          | nil => exact absurd rfl hp
          | cons c cs => rfl
        by_cases he : pathExists = false
        · rw [if_pos he]
          simp [loadedOk, he]
        · have he' : pathExists = true := by
            cases pathExists with
            | false => exact absurd rfl he
            | true => rfl
          rw [if_neg he]
          cases loadResult with
          | error e =>
            simp [loadedOk, hpe, he']
          | ok u =>
            show (mainBlock stdin parse gen).cleanupRuns = _
            rcases mainBlock_cases stdin parse gen with ⟨m, hm⟩ | hm <;>
              rw [hm] <;> simp [loadedOk, hpe, he']

/-- Claim C7: an unset or empty model-path setting makes the process print
exactly the MODEL_PATH error object and exit with status 1, with no cleanup,
no call of `generate_response`, and no model-loading attempted. -/
theorem model_path_missing_fatal (env : Option (List Char))
    (h : env = none ∨ env = some []) (pathExists : Bool)
    (loadResult : Except (List Char) Unit) (stdin : List Char)
    (parse : List Char → Except (List Char) JValue)
    (gen : Except PyExc (List Char)) (cleanupFails : Bool) :
    processRun env pathExists loadResult stdin parse gen cleanupFails =
      ⟨errObj MODEL_PATH_ERR, 1, 0, false, false⟩ := by
  rcases h with rfl | rfl
  · rfl
  · rw [processRun_some, if_pos rfl]

/-- Witness for C7: concrete run with the variable unset. -/
theorem model_path_missing_fatal_witness :
    processRun none true (Except.ok ()) ("hi".toList)
        (fun _ => Except.error []) (Except.ok []) false =
      ⟨errObj MODEL_PATH_ERR, 1, 0, false, false⟩ :=
  model_path_missing_fatal none (Or.inl rfl) true (Except.ok ()) ("hi".toList)
    (fun _ => Except.error []) (Except.ok []) false

/-- Whitespace-only input strips to the empty string. -/
theorem pyStrip_of_all_space (s : List Char) (h : ∀ c ∈ s, pyIsSpace c = true) :
    pyStrip s = [] := by
  unfold pyStrip
  rw [List.dropWhile_eq_nil_iff.mpr h]
  rfl

/-- Claim C9: standard input consisting only of whitespace characters
(including the empty input) is rejected with the no-input error and exit
status 1, because input is stripped before the emptiness check. -/
theorem whitespace_input_rejected (mp : List Char) (hmp : mp ≠ [])
    (stdin : List Char) (hws : ∀ c ∈ stdin, pyIsSpace c = true)
    (parse : List Char → Except (List Char) JValue)
    (gen : Except PyExc (List Char)) (cleanupFails : Bool) :
    processRun (some mp) true (Except.ok ()) stdin parse gen cleanupFails =
      ⟨errObj NO_INPUT_ERR, 1, 1, false, true⟩ := by
  rw [processRun_some, if_neg hmp, if_neg (by simp)]
  show mainBlock stdin parse gen = _
  unfold mainBlock
  rw [if_pos (pyStrip_of_all_space stdin hws)]

/-- Witness for C9: a run whose standard input is spaces, a tab and a
newline. -/
theorem whitespace_input_rejected_witness :
    processRun (some ("m".toList)) true (Except.ok ()) ("  \t\n ".toList)
        (fun _ => Except.error []) (Except.ok []) false =
      ⟨errObj NO_INPUT_ERR, 1, 1, false, true⟩ :=
  whitespace_input_rejected ("m".toList) (by decide) ("  \t\n ".toList) (by decide)
    (fun _ => Except.error []) (Except.ok []) false

/-- Claim C8: when standard input parses to a JSON value that is not an
object, the process prints an error object — either the missing-message-key
error or the generic request-processing error — exits with status 1, and
never invokes `generate_response`. -/
theorem non_object_json_rejected (mp : List Char) (hmp : mp ≠ [])
    (stdin : List Char) (hne : pyStrip stdin ≠ [])
    (parse : List Char → Except (List Char) JValue) (v : JValue)
    (hp : parse (pyStrip stdin) = Except.ok v) (hv : v.isObj = false)
    (gen : Except PyExc (List Char)) (cleanupFails : Bool) :
    (processRun (some mp) true (Except.ok ()) stdin parse gen cleanupFails).exitCode = 1 ∧
    isErrorShape (processRun (some mp) true (Except.ok ()) stdin parse gen cleanupFails).output = true ∧
    ((processRun (some mp) true (Except.ok ()) stdin parse gen cleanupFails).output =
        errObj NO_MSG_KEY_ERR ∨
      ∃ m, (processRun (some mp) true (Except.ok ()) stdin parse gen cleanupFails).output =
        errObj (reqErr m)) ∧
    (processRun (some mp) true (Except.ok ()) stdin parse gen cleanupFails).genCalled = false := by
  have hrun : processRun (some mp) true (Except.ok ()) stdin parse gen cleanupFails =
      mainBlock stdin parse gen := by
    rw [processRun_some, if_neg hmp, if_neg (by simp)]
  rw [hrun]
  unfold mainBlock
  rw [if_neg hne, hp]
  cases v with
  | obj kvs => simp [JValue.isObj] at hv
  | null => exact ⟨rfl, (errObj_shape _).1, Or.inr ⟨_, rfl⟩, rfl⟩
  | jbool b => exact ⟨rfl, (errObj_shape _).1, Or.inr ⟨_, rfl⟩, rfl⟩
  | num n => exact ⟨rfl, (errObj_shape _).1, Or.inr ⟨_, rfl⟩, rfl⟩
  | str s =>
    cases hc : containsSeq msgKey s with
    | false =>
      simp only [pyContains]
      rw [hc]
      exact ⟨rfl, (errObj_shape _).1, Or.inl rfl, rfl⟩
    | true =>
      simp only [pyContains]
      rw [hc]
      exact ⟨rfl, (errObj_shape _).1, Or.inr ⟨_, rfl⟩, rfl⟩
  | arr xs =>
    cases hc : xs.any (fun x => jvalEqStr x msgKey) with
    | false =>
      simp only [pyContains]
      rw [hc]
      exact ⟨rfl, (errObj_shape _).1, Or.inl rfl, rfl⟩
    | true =>
      simp only [pyContains]
      rw [hc]
      exact ⟨rfl, (errObj_shape _).1, Or.inr ⟨_, rfl⟩, rfl⟩

/-- Witness for C8: standard input holding the JSON number 5. -/
theorem non_object_json_rejected_witness :
    (processRun (some ("m".toList)) true (Except.ok ()) ("5".toList)
        (fun _ => Except.ok (JValue.num 5)) (Except.ok []) false).exitCode = 1 ∧
    isErrorShape (processRun (some ("m".toList)) true (Except.ok ()) ("5".toList)
        (fun _ => Except.ok (JValue.num 5)) (Except.ok []) false).output = true ∧
    ((processRun (some ("m".toList)) true (Except.ok ()) ("5".toList)
        (fun _ => Except.ok (JValue.num 5)) (Except.ok []) false).output =
        errObj NO_MSG_KEY_ERR ∨
      ∃ m, (processRun (some ("m".toList)) true (Except.ok ()) ("5".toList)
        (fun _ => Except.ok (JValue.num 5)) (Except.ok []) false).output =
        errObj (reqErr m)) ∧
    (processRun (some ("m".toList)) true (Except.ok ()) ("5".toList)
        (fun _ => Except.ok (JValue.num 5)) (Except.ok []) false).genCalled = false :=
  non_object_json_rejected ("m".toList) (by decide) ("5".toList) (by decide)
    (fun _ => Except.ok (JValue.num 5)) (JValue.num 5) rfl rfl (Except.ok []) false

/-- Counterexample to C6 as stated: on the decoded text `"Assistant: hi"`,
whose label is not preceded by a newline, the code (splitting on
`"\nAssistant:"`) keeps the whole text while the spec extraction (splitting on
`"Assistant:"`) yields `"hi"`. -/
theorem extraction_label_counterexample :
    extractCandidate ("Assistant: hi".toList) ≠
      specExtractCandidate ("Assistant: hi".toList) := by
  decide

/-- Claim C6 (amended): the code splits on the newline-prefixed label
`"\nAssistant:"`, so occurrences of `"Assistant:"` not preceded by a newline
are not split points; code and spec extraction agree on decoded texts of the
form `a ++ "\nAssistant:" ++ t` whose marked occurrence of the label is the
last one (no occurrence of `"Assistant:"` inside `t`, and none inside
`a ++ "\nAssistant"`). -/
theorem extraction_agrees_when_newline_labeled (a t : List Char)
    (h1 : containsSeq assistantLabel (a ++ '\n' :: "Assistant".toList) = false)
    (h2 : containsSeq assistantLabel t = false) :
    extractCandidate (a ++ nlAssistantLabel ++ t) =
      specExtractCandidate (a ++ nlAssistantLabel ++ t) := by
  have hshift : ∀ s : List Char, containsSeq nlAssistantLabel s = true →
      containsSeq assistantLabel s = true := by
    intro s hs
    rw [show nlAssistantLabel = '\n' :: assistantLabel from rfl] at hs
    exact containsSeq_of_cons '\n' assistantLabel s hs
  have hn1 : containsSeq nlAssistantLabel (a ++ nlAssistantLabel.dropLast) = false := by
    rw [show nlAssistantLabel.dropLast = '\n' :: "Assistant".toList from rfl]
    cases hcc : containsSeq nlAssistantLabel (a ++ '\n' :: "Assistant".toList) with
    | false => rfl
    | true =>
      have := hshift _ hcc
      rw [h1] at this
      exact absurd this (by simp)
  have hn2 : containsSeq nlAssistantLabel t = false := by
    cases hcc : containsSeq nlAssistantLabel t with
    | false => rfl
    | true =>
      have := hshift _ hcc
      rw [h2] at this
      exact absurd this (by simp)
  have hcode : pySplit nlAssistantLabel (a ++ nlAssistantLabel ++ t) = [a, t] :=
    pySplit_boundary nlAssistantLabel (by decide) a t hn1 hn2
  have hassoc : a ++ nlAssistantLabel ++ t = (a ++ ['\n']) ++ assistantLabel ++ t := by
    rw [show nlAssistantLabel = ['\n'] ++ assistantLabel from rfl]
    simp [List.append_assoc]
  have hs1 : containsSeq assistantLabel ((a ++ ['\n']) ++ assistantLabel.dropLast) = false := by
    rw [show assistantLabel.dropLast = "Assistant".toList from rfl, List.append_assoc]
    exact h1
  have hspec : pySplit assistantLabel ((a ++ ['\n']) ++ assistantLabel ++ t) =
      [a ++ ['\n'], t] :=
    pySplit_boundary assistantLabel (by decide) (a ++ ['\n']) t hs1 h2
  have hspec' : pySplit assistantLabel (a ++ nlAssistantLabel ++ t) = [a ++ ['\n'], t] := by
    rw [hassoc]
    exact hspec
  unfold extractCandidate specExtractCandidate responseLines specResponseLines
  rw [hcode, hspec']
  rfl

/-- Witness for C6 (amended): agreement on a decoded text with a single
newline-preceded label. -/
theorem extraction_agrees_when_newline_labeled_witness :
    extractCandidate ("Hello".toList ++ nlAssistantLabel ++ " Yes, sure".toList) =
      specExtractCandidate ("Hello".toList ++ nlAssistantLabel ++ " Yes, sure".toList) :=
  extraction_agrees_when_newline_labeled ("Hello".toList) (" Yes, sure".toList)
    (by decide) (by decide)

end AIChat
